import Mathlib

/-!
# Verification of the safe-chain forward proxy

Shallow embedding of `src/proxy/src/server/proxy.rs` and `src/proxy/src/main.rs`
(a forward HTTP/HTTPS proxy built on the rama framework), together with models
of the rama framework layers the proxy composes (authority extraction, hop-by-hop
header removal, body limiting, graceful shutdown), which are not part of the
repository's own sources.
-/

namespace SafeChain

/-- A validated (host, port) pair, mirroring rama's `Authority` as used through
`ctx.host_with_port()` and `ProxyTarget`. -/
structure Authority where
  host : String
  port : Nat
deriving DecidableEq, Repr

/-- A header multimap: insertion order kept, duplicates preserved, names matched
case-insensitively by the operations below. -/
abbrev Headers := List (String × String)

/-- An HTTP request as the proxy sees it: method, target (the request URI /
CONNECT authority), headers, and the `ProxyTarget` extension slot that
`http_connect_accept` may fill (`req.extensions_mut().insert(ProxyTarget(authority))`). -/
structure Request where
  method : String
  target : String
  headers : Headers
  proxyTarget : Option Authority := none
deriving DecidableEq, Repr

/-- An HTTP response: status code, headers and body bytes. -/
structure Response where
  status : Nat
  headers : Headers
  body : List Nat
deriving DecidableEq, Repr

/-- Models `StatusCode::X.into_response()`: a response with the given status,
no headers and an empty body (and no custom reason phrase). -/
def intoResponse (status : Nat) : Response :=
  { status := status, headers := [], body := [] }

/-! ## Authority extraction (rama's `RequestContext::try_from` / `host_with_port`) -/

/-- Splits a character list at the first colon: returns the part before it and,
when a colon is present, the part after it. -/
def breakColon : List Char → List Char × Option (List Char)
  | [] => ([], none)
  | c :: rest =>
    if c = ':' then ([], some rest)
    else
      let (h, p) := breakColon rest
      (c :: h, p)

/-- Parses a decimal port: non-empty, all digits, value below 2^16. -/
def parsePortChars (cs : List Char) : Option Nat :=
  if cs = [] then none
  else if cs.all Char.isDigit then
    let n := cs.foldl (fun acc c => acc * 10 + (c.toNat - 48)) 0
    if n < 65536 then some n else none
  else none

/-- Modelled from the spec: rama's `RequestContext::try_from(&req).map(|ctx| ctx.host_with_port())`
is framework code not under `src/`. Per the spec an Authority is "a validated (host, port)
pair extracted from a CONNECT request's target or an absolute-URI request line" with the
invariant "port is present (default 443 for CONNECT, 80 for plain HTTP) and host is
non-empty"; extraction fails on a missing or unparseable host:port. -/
def parseAuthority (defaultPort : Nat) (target : String) : Option Authority :=
  let (h, p?) := breakColon target.data
  if h = [] then none
  else
    match p? with
    | none => some ⟨⟨h⟩, defaultPort⟩
    | some pcs => (parsePortChars pcs).map (fun p => ⟨⟨h⟩, p⟩)

/-- Authority extraction for a request, with the CONNECT default port 443 and the
plain-HTTP default port 80. -/
def requestAuthority (req : Request) : Option Authority :=
  parseAuthority (if req.method = "CONNECT" then 443 else 80) req.target

/-! ## The CONNECT accept handler (`http_connect_accept` in `proxy.rs`) -/

/-- Embeds `http_connect_accept`: on successful authority extraction it stores
`ProxyTarget(authority)` in the request's extensions and returns
`Ok((StatusCode::OK.into_response(), req))`; on failure it returns
`Err(StatusCode::BAD_REQUEST.into_response())` before any insertion. -/
def http_connect_accept (req : Request) : Except Response (Response × Request) :=
  match requestAuthority req with
  | some authority => .ok (intoResponse 200, { req with proxyTarget := some authority })
  | none => .error (intoResponse 400)

/-! ## Hop-by-hop header removal
(`RemoveRequestHeaderLayer::hop_by_hop()` / `RemoveResponseHeaderLayer::hop_by_hop()`) -/

/-- Lowercases a header name for case-insensitive matching. -/
def lowerName (s : String) : String :=
  ⟨s.data.map Char.toLower⟩

/-- The fixed hop-by-hop header names, lowercased. -/
def hopByHopNames : List String :=
  ["connection", "keep-alive", "proxy-authenticate", "proxy-authorization",
   "te", "trailer", "transfer-encoding", "upgrade"]

/-- Splits a character list at commas into groups. -/
def splitComma : List Char → List (List Char)
  | [] => [[]]
  | c :: rest =>
    if c = ',' then [] :: splitComma rest
    else
      match splitComma rest with
      | [] => [[c]]
      | g :: gs => (c :: g) :: gs

/-- Drops surrounding blanks from a token. -/
def trimChars (cs : List Char) : List Char :=
  ((cs.dropWhile (fun c => c == ' ' || c == '\t')).reverse.dropWhile
    (fun c => c == ' ' || c == '\t')).reverse

/-- The lowercased header names listed in the value of any `Connection` header of `h`
(comma-separated, surrounding blanks ignored). -/
def connectionListed (h : Headers) : List String :=
  (h.filter (fun p => lowerName p.1 == "connection")).flatMap
    (fun p => (splitComma p.2.data).map (fun cs => ⟨(trimChars cs).map Char.toLower⟩))

/-- Does `name` denote a hop-by-hop header of the map `h` (a fixed hop-by-hop name, or a
name listed in a `Connection` header's value), case-insensitively? -/
def isHopByHop (h : Headers) (name : String) : Bool :=
  hopByHopNames.contains (lowerName name) || (connectionListed h).contains (lowerName name)

/-- Modelled from the spec: the `hop_by_hop` remove-header layers are rama framework code
not under `src/`. Per the spec, `sanitize` "removes, case-insensitively, exactly the
hop-by-hop set: `Connection`, any header named by `Connection`'s value (connection-specific
extension headers), `Keep-Alive`, `Proxy-Authenticate`, `Proxy-Authorization`, `TE`,
`Trailer`, `Transfer-Encoding`, `Upgrade`", leaving every other header entry as it is. -/
def sanitize (h : Headers) : Headers :=
  h.filter (fun p => !(isHopByHop h p.1))

/-! ## The plain-HTTP forwarding handler (`http_plain_proxy` in `proxy.rs`) -/

/-- Embeds `http_plain_proxy`. The outcome of `EasyHttpWebClient::default().serve(req)` is
supplied as an oracle `upstream` (`some resp` when the origin answers, `none` on any
forwarding failure). On failure the handler answers
`StatusCode::BAD_GATEWAY.into_response()`; its error type is `Infallible`, embedded as the
uninhabited `Empty`. -/
def http_plain_proxy (upstream : Request → Option Response) (req : Request) :
    Except Empty Response :=
  match upstream req with
  | some resp => .ok resp
  | none => .ok (intoResponse 502)

/-! ## The dispatcher stack (`server_task` in `proxy.rs`)

The HTTP service is the layer tuple
`(TraceLayer, ConsumeErrLayer, UpgradeLayer(CONNECT, http_connect_accept, Forwarder),
RemoveResponseHeaderLayer::hop_by_hop(), RemoveRequestHeaderLayer::hop_by_hop())`
wrapped around `service_fn(http_plain_proxy)`: a request meets the layers in that
order, so a CONNECT request diverts at the `UpgradeLayer` and only non-CONNECT
requests reach the two remove-header layers. -/

/-- The request `http_plain_proxy` receives: the client request after
`RemoveRequestHeaderLayer::hop_by_hop()` has removed its hop-by-hop headers. -/
def forwardedRequest (req : Request) : Request :=
  { req with headers := sanitize req.headers }

/-- Outcome of serving one request through the HTTP service stack. -/
inductive DispatchResult where
  /-- CONNECT whose authority failed to parse: the error response is written, no upgrade. -/
  | connectRefused (resp : Response)
  /-- CONNECT accepted: the response is written to the client, then the upgraded
  connection is handled by `Forwarder::ctx()` using the request's `ProxyTarget`. -/
  | connectEstablished (resp : Response) (tunnelReq : Request)
  /-- any other method: the response produced by the plain-proxy branch. -/
  | plain (resp : Response)
deriving DecidableEq, Repr

/-- Embeds one pass of the HTTP service stack of `server_task`: `UpgradeLayer` routes
CONNECT requests to `http_connect_accept`, every other request through the two
`hop_by_hop` remove-header layers around `http_plain_proxy` (request headers removed on
the way in, response headers removed on the way out). -/
def dispatch (upstream : Request → Option Response) (req : Request) : DispatchResult :=
  if req.method = "CONNECT" then
    match http_connect_accept req with
    | .error resp => .connectRefused resp
    | .ok (resp, req') => .connectEstablished resp req'
  else
    match http_plain_proxy upstream (forwardedRequest req) with
    | .ok resp => .plain { resp with headers := sanitize resp.headers }
    | .error e => e.elim

/-- The authorities `Forwarder::ctx()` opens an outbound TCP connection to: the
`ProxyTarget` of an upgraded CONNECT request, and nothing otherwise (in particular,
nothing when the CONNECT was refused — the upgrade service returned `Err`, so the
`UpgradeLayer` writes the error response and never invokes the forwarder). -/
def forwarderTargets : DispatchResult → List Authority
  | .connectEstablished _ req' => req'.proxyTarget.toList
  | _ => []

/-! ## Body limiting (`BodyLimitLayer::symmetric(MAX_BODY_SIZE)` in `proxy.rs`) -/

/-- Embeds `const MAX_BODY_SIZE: usize = 500 * 1024 * 1024` from `proxy.rs`. -/
def MAX_BODY_SIZE : Nat := 500 * 1024 * 1024

/-- Modelled from the spec: `BodyLimitLayer` is rama framework code not under `src/`.
`symmetric(c)` configures the same byte budget `c` for the request-body direction and the
response-body direction, tracked independently ("500 MiB default, symmetric for request
and response bodies"). -/
def symmetricLimit (c : Nat) : Nat × Nat :=
  (c, c)

/-- The error a limited body stream fails with once cumulative bytes exceed the budget. -/
inductive BodyError where
  | sizeExceeded
deriving DecidableEq, Repr

/-- Modelled from the spec: the limited body reader is rama framework code not under
`src/`. It is "a pass-through counter, not a buffer": it consumes the stream's chunks in
order, adding each chunk's size to the running total, and "reading past B fails the
stream with a size-exceeded error". Returns the total bytes passed through on success. -/
def readLimited (limit : Nat) : List Nat → Nat → Except BodyError Nat
  | [], total => .ok total
  | c :: rest, total =>
    if limit < total + c then .error .sizeExceeded
    else readLimited limit rest (total + c)

/-- How a connection ends: with a response written back, or closed with none. -/
inductive ConnectionOutcome where
  | responded (resp : Response)
  | closed
deriving DecidableEq, Repr

/-- Modelled from the spec: the dispatcher's reaction to a body-limit error is framework
code not under `src/`. The size-exceeded error "is surfaced to the Dispatcher, which must
close the offending connection rather than attempt to send a partial response": the
response is written only if the limited body read succeeded. -/
def finishRequest (limit : Nat) (bodyChunks : List Nat) (resp : Response) :
    ConnectionOutcome :=
  match readLimited limit bodyChunks 0 with
  | .ok _ => .responded resp
  | .error _ => .closed

/-- Embeds `serve_graceful` wiring of `server_task`: every accepted connection is wrapped
by `BodyLimitLayer::symmetric(MAX_BODY_SIZE)` before the HTTP service runs, so the
(request, response) body budgets attached to a connection are `(MAX_BODY_SIZE,
MAX_BODY_SIZE)` whatever the request then dispatched on it. -/
def serveConnection (upstream : Request → Option Response) (req : Request) :
    (Nat × Nat) × DispatchResult :=
  (symmetricLimit MAX_BODY_SIZE, dispatch upstream req)

/-! ## Graceful shutdown (`run_server` in `proxy.rs`) -/

/-- Embeds `Duration::from_secs(30)`, the limit passed to `shutdown_with_limit` in
`run_server` (in seconds). -/
def drainDeadline : Nat := 30

/-- The instant at which the in-flight task set becomes empty naturally: the latest
completion instant among the tasks. -/
def naturalDrain (tasks : List Nat) : Nat :=
  tasks.foldr max 0

/-- Modelled from the spec: `rama::graceful::Shutdown::shutdown_with_limit` is framework
code not under `src/`. Draining ends "either (a) ActiveTaskSet becomes empty naturally,
or (b) a configured drain deadline ... elapses, whichever first". Given each in-flight
task's natural completion instant (measured from the shutdown trigger), this is the
instant the process exits. -/
def exitTime (deadline : Nat) (tasks : List Nat) : Nat :=
  if tasks.all (fun t => t ≤ deadline) then naturalDrain tasks else deadline

/-- Modelled from the spec: on deadline expiry the coordinator "forcibly cancels all
remaining tasks" — exactly those whose natural completion lies past the deadline. -/
def forciblyCancelled (deadline : Nat) (tasks : List Nat) : List Nat :=
  tasks.filter (fun t => deadline < t)

/-! ## Listening address (`server_task` in `proxy.rs` and in `main.rs`) -/

/-- Embeds `format!("127.0.0.1:{}", port)` from `proxy.rs`: the address string the TCP
listener is bound to, as characters. -/
def bindAddress (port : Nat) : List Char :=
  "127.0.0.1:".data ++ (Nat.repr port).data

/-- Embeds the literal `"127.0.0.1:3128"` that `main.rs` binds to. -/
def mainBindAddress : List Char :=
  "127.0.0.1:3128".data

/-- The host part of a `host:port` address string: everything before the first colon. -/
def hostOf (s : List Char) : List Char :=
  s.takeWhile (fun c => !(c == ':'))

/-- The port part of a `host:port` address string: everything after the first colon. -/
def portOf (s : List Char) : List Char :=
  (s.dropWhile (fun c => !(c == ':'))).drop 1

/-! ## HTTP/1.1 status-line serialization of a handler response -/

/-- The canonical HTTP reason phrase for the status codes the proxy produces. -/
def canonicalReason (status : Nat) : String :=
  if status = 200 then "OK"
  else if status = 400 then "Bad Request"
  else if status = 502 then "Bad Gateway"
  else ""

/-- Modelled from the spec: the status-line serialization (`HTTP/1.1 <code> <reason>`,
spec §6) is performed by the rama framework's HTTP/1.1 writer, not by code under `src/`.
The handlers build their responses with `StatusCode::X.into_response()`, which sets no
custom reason phrase, and a response without one is serialized with the canonical reason
phrase of its status code. -/
def statusLine (resp : Response) : String :=
  "HTTP/1.1 " ++ Nat.repr resp.status ++ " " ++ canonicalReason resp.status

/-!
## Theorems for the claims
-/

/-- Membership in a sanitized header map. -/
lemma mem_sanitize {h : Headers} {p : String × String} :
    p ∈ sanitize h ↔ p ∈ h ∧ isHopByHop h p.1 = false := by
  simp [sanitize, List.mem_filter]

/-- A name fails the hop-by-hop test iff its lowercase form is in neither the fixed set
nor the Connection-listed set. -/
lemma isHopByHop_eq_false {h : Headers} {name : String} :
    isHopByHop h name = false ↔
      lowerName name ∉ hopByHopNames ∧ lowerName name ∉ connectionListed h := by
  simp [isHopByHop, List.elem_iff]

/-- A sanitized header map holds no `Connection` header, so it lists no
connection-specific extension headers. -/
lemma connectionListed_sanitize (h : Headers) : connectionListed (sanitize h) = [] := by
  have hf : (sanitize h).filter (fun p => lowerName p.1 == "connection") = [] := by
    rw [List.filter_eq_nil_iff]
    intro p hp hconn
    have h2 := (isHopByHop_eq_false.mp (mem_sanitize.mp hp).2).1
    apply h2
    rw [eq_of_beq hconn]
    simp [hopByHopNames]
  unfold connectionListed
  rw [hf]
  rfl

/-- On a sanitized header map the hop-by-hop test degenerates to the fixed name set. -/
lemma isHopByHop_sanitize (h : Headers) (name : String) :
    isHopByHop (sanitize h) name = hopByHopNames.contains (lowerName name) := by
  unfold isHopByHop
  rw [connectionListed_sanitize]
  simp [List.contains]

/-- Claim C1: For every CONNECT request whose target authority cannot be parsed into a
host:port, the proxy produces a 400 Bad Request response and opens no outbound
connection to any origin. -/
theorem connect_unparseable_400_no_outbound (upstream : Request → Option Response)
    (req : Request) (hm : req.method = "CONNECT") (ha : requestAuthority req = none) :
    dispatch upstream req = .connectRefused (intoResponse 400) ∧
    (intoResponse 400).status = 400 ∧
    forwarderTargets (dispatch upstream req) = [] := by
  have h400 : http_connect_accept req = .error (intoResponse 400) := by
    unfold http_connect_accept
    rw [ha]
  have hd : dispatch upstream req = .connectRefused (intoResponse 400) := by
    unfold dispatch
    rw [if_pos hm, h400]
  exact ⟨hd, rfl, by rw [hd]; rfl⟩

/-- Claim C1 witness: the CONNECT request with the empty target is refused with 400 and no
outbound connection is opened. -/
theorem connect_unparseable_400_no_outbound_witness :
    dispatch (fun _ => none) ⟨"CONNECT", "", [], none⟩ = .connectRefused (intoResponse 400) ∧
    (intoResponse 400).status = 400 ∧
    forwarderTargets (dispatch (fun _ => none) ⟨"CONNECT", "", [], none⟩) = [] :=
  connect_unparseable_400_no_outbound (fun _ => none) ⟨"CONNECT", "", [], none⟩ rfl rfl

/-- Claim C2: For every plain HTTP request, if forwarding to the origin fails for any reason
the handler returns a 502 Bad Gateway response; a successful origin response is the only
other outcome; and the handler never itself fails (its error type is uninhabited, so it
always returns `.ok`). -/
theorem plain_proxy_502_only_error_infallible (upstream : Request → Option Response)
    (req : Request) :
    (upstream req = none →
      http_plain_proxy upstream req = .ok (intoResponse 502) ∧
      (intoResponse 502).status = 502) ∧
    (∀ resp, upstream req = some resp → http_plain_proxy upstream req = .ok resp) ∧
    (∃ r, http_plain_proxy upstream req = .ok r) := by
  unfold http_plain_proxy
  refine ⟨fun hn => ?_, fun resp hs => ?_, ?_⟩
  · rw [hn]
    exact ⟨rfl, rfl⟩
  · rw [hs]
  · cases h : upstream req with
    | none => exact ⟨intoResponse 502, rfl⟩
    | some resp => exact ⟨resp, rfl⟩

/-- Claim C2 witness: with an unreachable origin, the handler answers 502 as an `.ok` value. -/
theorem plain_proxy_502_only_error_infallible_witness :
    http_plain_proxy (fun _ => none) ⟨"GET", "http://example.test/", [], none⟩ =
      .ok (intoResponse 502) ∧
    (intoResponse 502).status = 502 :=
  (plain_proxy_502_only_error_infallible (fun _ => none)
    ⟨"GET", "http://example.test/", [], none⟩).1 rfl

/-- Claim C10: `http_connect_accept` returns `Ok` exactly when authority extraction succeeds;
then the returned request carries a `ProxyTarget` extension equal to the extracted
authority (and the response is the 200). When extraction fails it returns `Err` with a
400 response, and no request — hence no inserted `ProxyTarget` extension — escapes. -/
theorem connect_accept_characterization (req : Request) :
    (∀ a, requestAuthority req = some a →
      http_connect_accept req = .ok (intoResponse 200, { req with proxyTarget := some a })) ∧
    (requestAuthority req = none →
      http_connect_accept req = .error (intoResponse 400) ∧
      ∀ pr, http_connect_accept req ≠ .ok pr) ∧
    ((∃ pr, http_connect_accept req = .ok pr) ↔ ∃ a, requestAuthority req = some a) := by
  unfold http_connect_accept
  refine ⟨fun a ha => by rw [ha], fun hn => ?_, ?_⟩
  · rw [hn]
    exact ⟨rfl, fun pr h => by cases h⟩
  · cases h : requestAuthority req with
    | none =>
      constructor
      · rintro ⟨pr, hpr⟩
        cases hpr
      · rintro ⟨a, ha⟩
        cases ha
    | some a =>
      constructor
      · intro _
        exact ⟨a, rfl⟩
      · intro _
        exact ⟨(intoResponse 200, { req with proxyTarget := some a }), rfl⟩

/-- Claim C3: `sanitize` removes, case-insensitively, exactly the hop-by-hop header set
(`Connection`, every header named in a `Connection` value, `Keep-Alive`,
`Proxy-Authenticate`, `Proxy-Authorization`, `TE`, `Trailer`, `Transfer-Encoding`,
`Upgrade`): what survives is never hop-by-hop, everything not hop-by-hop survives,
and the survivors are an in-order sublist of the original (other headers unchanged).
On the forwarding path it is applied to both the forwarded request and the
returned response. -/
theorem sanitize_removes_exactly_hop_by_hop (h : Headers)
    (upstream : Request → Option Response) (req : Request) :
    (sanitize h).Sublist h ∧
    (∀ p ∈ sanitize h,
      lowerName p.1 ∉ hopByHopNames ∧ lowerName p.1 ∉ connectionListed h) ∧
    (∀ p ∈ h, lowerName p.1 ∉ hopByHopNames → lowerName p.1 ∉ connectionListed h →
      p ∈ sanitize h) ∧
    (∀ resp, req.method ≠ "CONNECT" → upstream (forwardedRequest req) = some resp →
      (forwardedRequest req).headers = sanitize req.headers ∧
      dispatch upstream req = .plain { resp with headers := sanitize resp.headers }) := by
  refine ⟨List.filter_sublist h, ?_, ?_, ?_⟩
  · intro p hp
    exact isHopByHop_eq_false.mp (mem_sanitize.mp hp).2
  · intro p hp h1 h2
    exact mem_sanitize.mpr ⟨hp, isHopByHop_eq_false.mpr ⟨h1, h2⟩⟩
  · intro resp hm hup
    refine ⟨rfl, ?_⟩
    unfold dispatch
    rw [if_neg hm]
    unfold http_plain_proxy
    rw [hup]

/-- Claim C3 witness: a `GET` whose headers hold mixed-case hop-by-hop names and a
`Connection`-listed extension header is forwarded with exactly those removed, and the
origin response loses its `Transfer-Encoding` on the way back. -/
theorem sanitize_removes_exactly_hop_by_hop_witness :
    forwardedRequest ⟨"GET", "http://example.test/",
        [("Host", "example.test"), ("CONNECTION", "X-Custom"), ("X-Custom", "1"),
         ("PROXY-Authorization", "Basic xyz"), ("Accept", "a")], none⟩ =
      ⟨"GET", "http://example.test/",
        [("Host", "example.test"), ("Accept", "a")], none⟩ ∧
    dispatch (fun _ => some ⟨200, [("Transfer-Encoding", "chunked"), ("Date", "d")], []⟩)
      ⟨"GET", "http://example.test/",
        [("Host", "example.test"), ("CONNECTION", "X-Custom"), ("X-Custom", "1"),
         ("PROXY-Authorization", "Basic xyz"), ("Accept", "a")], none⟩ =
      .plain ⟨200, [("Date", "d")], []⟩ := by
  have hw := (sanitize_removes_exactly_hop_by_hop []
    (fun _ => some ⟨200, [("Transfer-Encoding", "chunked"), ("Date", "d")], []⟩)
    ⟨"GET", "http://example.test/",
      [("Host", "example.test"), ("CONNECTION", "X-Custom"), ("X-Custom", "1"),
       ("PROXY-Authorization", "Basic xyz"), ("Accept", "a")], none⟩).2.2.2
    ⟨200, [("Transfer-Encoding", "chunked"), ("Date", "d")], []⟩ (by decide) rfl
  exact ⟨rfl, hw.2⟩

/-- Claim C8: the header sanitize transform is idempotent: sanitizing an already-sanitized
header map is a no-op. -/
theorem sanitize_idempotent (h : Headers) : sanitize (sanitize h) = sanitize h := by
  have hdef : sanitize (sanitize h) =
      (sanitize h).filter (fun p => !(isHopByHop (sanitize h) p.1)) := rfl
  rw [hdef, List.filter_eq_self]
  intro p hp
  rw [isHopByHop_sanitize]
  have h1 := (isHopByHop_eq_false.mp (mem_sanitize.mp hp).2).1
  simp [List.elem_iff, h1]

/-- A limited body read fails exactly when the bytes still to come push the running
total past the budget. -/
lemma readLimited_error_iff {limit : Nat} (chunks : List Nat) (total : Nat)
    (h : total ≤ limit) :
    readLimited limit chunks total = .error .sizeExceeded ↔ limit < total + chunks.sum := by
  induction chunks generalizing total with
  | nil =>
    simp only [readLimited, List.sum_nil, Nat.add_zero]
    constructor
    · intro hx
      cases hx
    · intro hx
      omega
  | cons c rest ih =>
    simp only [readLimited, List.sum_cons]
    by_cases hc : limit < total + c
    · rw [if_pos hc]
      constructor
      · intro _
        omega
      · intro _
        rfl
    · rw [if_neg hc]
      rw [ih (total + c) (by omega)]
      omega

/-- Claim C4: the default body budget is 500 MiB, configured symmetrically — and independently —
for the request and the response direction of every connection; a limited body stream
fails with the size-exceeded error exactly when its bytes exceed the budget, and on such
an error the connection is closed instead of a partial response being sent. -/
theorem body_limit_500MiB_symmetric_closes (upstream : Request → Option Response)
    (req : Request) :
    MAX_BODY_SIZE = 500 * 1024 * 1024 ∧
    (serveConnection upstream req).1 = (MAX_BODY_SIZE, MAX_BODY_SIZE) ∧
    (∀ limit chunks,
      readLimited limit chunks 0 = .error .sizeExceeded ↔ limit < chunks.sum) ∧
    (∀ limit chunks resp, limit < chunks.sum →
      finishRequest limit chunks resp = .closed) := by
  refine ⟨rfl, rfl, ?_, ?_⟩
  · intro limit chunks
    rw [readLimited_error_iff chunks 0 (Nat.zero_le limit)]
    omega
  · intro limit chunks resp hover
    unfold finishRequest
    rw [(readLimited_error_iff chunks 0 (Nat.zero_le limit)).mpr (by omega)]

/-- Claim C4 witness: a 6-byte body against a 5-byte budget closes the connection with no
response, and the configured budgets of a connection are the symmetric 500 MiB pair. -/
theorem body_limit_500MiB_symmetric_closes_witness :
    (serveConnection (fun _ => none) ⟨"GET", "http://example.test/", [], none⟩).1 =
      (MAX_BODY_SIZE, MAX_BODY_SIZE) ∧
    finishRequest 5 [6] (intoResponse 200) = .closed := by
  have hthm := body_limit_500MiB_symmetric_closes (fun _ => none)
    ⟨"GET", "http://example.test/", [], none⟩
  exact ⟨hthm.2.1, hthm.2.2.2 5 [6] (intoResponse 200) (by decide)⟩

/-- Every task's completion instant is bounded by the natural drain instant. -/
lemma le_naturalDrain {t : Nat} {tasks : List Nat} (ht : t ∈ tasks) :
    t ≤ naturalDrain tasks := by
  induction tasks with
  | nil => cases ht
  | cons a l ih =>
    show t ≤ max a (naturalDrain l)
    cases List.mem_cons.mp ht with
    | inl hh => exact hh ▸ Nat.le_max_left a (naturalDrain l)
    | inr hh => exact Nat.le_trans (ih hh) (Nat.le_max_right a (naturalDrain l))

/-- The natural drain instant is bounded by any common bound of the tasks. -/
lemma naturalDrain_le {tasks : List Nat} {d : Nat} (h : ∀ t ∈ tasks, t ≤ d) :
    naturalDrain tasks ≤ d := by
  induction tasks with
  | nil => exact Nat.zero_le d
  | cons a l ih =>
    show max a (naturalDrain l) ≤ d
    exact max_le (h a (List.mem_cons_self a l))
      (ih fun t ht => h t (List.mem_cons_of_mem a ht))

/-- Claim C7: with the 30-second drain deadline of `run_server`, the process exits at the
earlier of the natural drain instant and the deadline: never after the deadline, never
before a task that finishes inside the window, only at the deadline while a task is
still active, and the forcibly cancelled tasks are exactly those not done by the
deadline (none iff all complete inside the window). -/
theorem shutdown_drain_deadline (tasks : List Nat) :
    exitTime drainDeadline tasks = min drainDeadline (naturalDrain tasks) ∧
    exitTime drainDeadline tasks ≤ drainDeadline ∧
    (∀ t ∈ tasks, t ≤ drainDeadline → t ≤ exitTime drainDeadline tasks) ∧
    (∀ t ∈ tasks, exitTime drainDeadline tasks < t →
      exitTime drainDeadline tasks = drainDeadline) ∧
    (forciblyCancelled drainDeadline tasks = [] ↔ ∀ t ∈ tasks, t ≤ drainDeadline) ∧
    (forciblyCancelled drainDeadline tasks ≠ [] →
      exitTime drainDeadline tasks = drainDeadline) ∧
    (∀ t, t ∈ forciblyCancelled drainDeadline tasks ↔ t ∈ tasks ∧ drainDeadline < t) := by
  have hcancel : ∀ t, t ∈ forciblyCancelled drainDeadline tasks ↔
      t ∈ tasks ∧ drainDeadline < t := by
    intro t
    simp [forciblyCancelled, List.mem_filter]
  have hnil : forciblyCancelled drainDeadline tasks = [] ↔
      ∀ t ∈ tasks, t ≤ drainDeadline := by
    unfold forciblyCancelled
    rw [List.filter_eq_nil_iff]
    constructor
    · intro hf t ht
      have := hf t ht
      simp at this
      omega
    · intro hb t ht
      simp
      exact hb t ht
  by_cases hall : ∀ t ∈ tasks, t ≤ drainDeadline
  · have hballs : tasks.all (fun t => t ≤ drainDeadline) = true := by
      rw [List.all_eq_true]
      intro t ht
      simp
      exact hall t ht
    have hexit : exitTime drainDeadline tasks = naturalDrain tasks := by
      unfold exitTime
      rw [if_pos hballs]
    have hle : naturalDrain tasks ≤ drainDeadline := naturalDrain_le hall
    refine ⟨?_, ?_, ?_, ?_, hnil, ?_, hcancel⟩
    · rw [hexit, Nat.min_eq_right hle]
    · rw [hexit]; exact hle
    · intro t ht _
      rw [hexit]
      exact le_naturalDrain ht
    · intro t ht habove
      exact absurd (hexit ▸ le_naturalDrain ht) (Nat.not_le.mpr habove)
    · intro hne
      exact absurd (hnil.mpr hall) hne
  · have hballs : tasks.all (fun t => t ≤ drainDeadline) = false := by
      rw [Bool.eq_false_iff]
      intro hcon
      apply hall
      intro t ht
      have := List.all_eq_true.mp hcon t ht
      simpa using this
    have hexit : exitTime drainDeadline tasks = drainDeadline := by
      unfold exitTime
      rw [hballs]
      rfl
    obtain ⟨t0, ht0, hd0⟩ := by
      push_neg at hall
      exact hall
    have hmin : min drainDeadline (naturalDrain tasks) = drainDeadline :=
      Nat.min_eq_left (Nat.le_trans (Nat.le_of_lt hd0) (le_naturalDrain ht0))
    refine ⟨?_, ?_, ?_, ?_, hnil, ?_, hcancel⟩
    · rw [hexit, hmin]
    · rw [hexit]
    · intro t ht hin
      rw [hexit]
      exact hin
    · intro _ _ _
      exact hexit
    · intro _
      exact hexit

/-- Claim C7 witness: two tasks due at 10 and 40 seconds: the process exits exactly at the
30-second deadline and forcibly cancels the task due at 40. -/
theorem shutdown_drain_deadline_witness :
    exitTime drainDeadline [10, 40] = drainDeadline ∧
    forciblyCancelled drainDeadline [10, 40] = [40] ∧
    (40 ∈ forciblyCancelled drainDeadline [10, 40] ↔
      40 ∈ [10, 40] ∧ drainDeadline < 40) := by
  refine ⟨(shutdown_drain_deadline [10, 40]).2.2.2.2.2.1 (by decide), by decide,
    (shutdown_drain_deadline [10, 40]).2.2.2.2.2.2 40⟩

/-- Claim C9: for every configured port, the listener of `server_task` is bound to an address
whose host part is exactly the loopback `127.0.0.1` (with the configured port as its
port part), and `main.rs` binds the same shape of address at port 3128 — the proxy never
listens on a non-loopback host. -/
theorem binds_loopback_only (port : Nat) :
    hostOf (bindAddress port) = "127.0.0.1".data ∧
    portOf (bindAddress port) = (Nat.repr port).data ∧
    mainBindAddress = bindAddress 3128 :=
  ⟨rfl, rfl, rfl⟩

/-- Claim C10 witness: on `CONNECT example.test:443` the handler succeeds and stores the
extracted authority as the `ProxyTarget` extension. -/
theorem connect_accept_characterization_witness :
    http_connect_accept ⟨"CONNECT", "example.test:443", [], none⟩ =
      .ok (intoResponse 200, ⟨"CONNECT", "example.test:443", [], some ⟨"example.test", 443⟩⟩) :=
  (connect_accept_characterization ⟨"CONNECT", "example.test:443", [], none⟩).1
    ⟨"example.test", 443⟩ rfl

/-- Claim C5 counterexample: on `CONNECT example.test:443` the proxy does reply with a
bodiless 200, but its status line carries the canonical reason phrase `OK` — the code
builds the response as `StatusCode::OK.into_response()` with no custom reason phrase —
so the claimed reason phrase `Connection Established` is not what is emitted. -/
theorem connect_reason_phrase_counterexample :
    dispatch (fun _ => none) ⟨"CONNECT", "example.test:443", [], none⟩ =
      .connectEstablished (intoResponse 200)
        ⟨"CONNECT", "example.test:443", [], some ⟨"example.test", 443⟩⟩ ∧
    (intoResponse 200).body = [] ∧
    statusLine (intoResponse 200) = "HTTP/1.1 200 OK" ∧
    statusLine (intoResponse 200) ≠ "HTTP/1.1 200 Connection Established" := by
  refine ⟨rfl, rfl, rfl, ?_⟩
  decide

/-- Claim C5 (amended): for every well-formed CONNECT request whose authority parses, the
proxy replies — before the opaque relay is handed the upgraded connection — with an
HTTP/1.1 200 response carrying no body, whose serialized status line is
`HTTP/1.1 200 OK` (the canonical reason phrase, since the handler sets none). -/
theorem connect_success_200_no_body (upstream : Request → Option Response)
    (req : Request) (a : Authority) (hm : req.method = "CONNECT")
    (ha : requestAuthority req = some a) :
    dispatch upstream req =
      .connectEstablished (intoResponse 200) { req with proxyTarget := some a } ∧
    (intoResponse 200).status = 200 ∧
    (intoResponse 200).body = [] ∧
    statusLine (intoResponse 200) = "HTTP/1.1 200 OK" := by
  have hok : http_connect_accept req =
      .ok (intoResponse 200, { req with proxyTarget := some a }) := by
    unfold http_connect_accept
    rw [ha]
  refine ⟨?_, rfl, rfl, rfl⟩
  unfold dispatch
  rw [if_pos hm, hok]

/-- Claim C5 witness: `CONNECT example.test:443` is accepted with the bodiless 200. -/
theorem connect_success_200_no_body_witness :
    dispatch (fun _ => none) ⟨"CONNECT", "example.test:443", [], none⟩ =
      .connectEstablished (intoResponse 200)
        ⟨"CONNECT", "example.test:443", [], some ⟨"example.test", 443⟩⟩ ∧
    (intoResponse 200).body = [] :=
  ⟨(connect_success_200_no_body (fun _ => none) ⟨"CONNECT", "example.test:443", [], none⟩
      ⟨"example.test", 443⟩ rfl rfl).1,
   (connect_success_200_no_body (fun _ => none) ⟨"CONNECT", "example.test:443", [], none⟩
      ⟨"example.test", 443⟩ rfl rfl).2.2.1⟩

/-- Claim C6 counterexample: a CONNECT request carrying the hop-by-hop header
`Proxy-Authorization` crosses the dispatcher with its headers untouched — the
`UpgradeLayer` diverts CONNECT requests before the two remove-header layers — even
though the sanitizer transform would have removed that header; so the sanitizer is not
applied to every request regardless of method. -/
theorem sanitizer_every_branch_counterexample :
    dispatch (fun _ => none)
      ⟨"CONNECT", "example.test:443", [("Proxy-Authorization", "Basic xyz")], none⟩ =
      .connectEstablished (intoResponse 200)
        ⟨"CONNECT", "example.test:443", [("Proxy-Authorization", "Basic xyz")],
          some ⟨"example.test", 443⟩⟩ ∧
    sanitize [("Proxy-Authorization", "Basic xyz")] = [] ∧
    (⟨"CONNECT", "example.test:443", [("Proxy-Authorization", "Basic xyz")],
        some ⟨"example.test", 443⟩⟩ : Request).headers ≠
      sanitize [("Proxy-Authorization", "Basic xyz")] := by
  refine ⟨rfl, rfl, ?_⟩
  decide

/-- Claim C6 (amended): the body limiter wraps every connection — its symmetric
`MAX_BODY_SIZE` budgets are attached before dispatch, whatever the method — but the
header sanitizer runs only on the plain-HTTP branch, where it is applied to the
forwarded request and to the returned response; a CONNECT request diverts at the
`UpgradeLayer` ahead of the remove-header layers and crosses with its headers
unchanged. -/
theorem limiter_every_branch_sanitizer_plain_only (upstream : Request → Option Response)
    (req : Request) :
    (serveConnection upstream req).1 = (MAX_BODY_SIZE, MAX_BODY_SIZE) ∧
    (∀ resp, req.method ≠ "CONNECT" → upstream (forwardedRequest req) = some resp →
      (forwardedRequest req).headers = sanitize req.headers ∧
      dispatch upstream req = .plain { resp with headers := sanitize resp.headers }) ∧
    (∀ resp tq, dispatch upstream req = .connectEstablished resp tq →
      tq.headers = req.headers) := by
  refine ⟨rfl, ?_, ?_⟩
  · intro resp hm hup
    refine ⟨rfl, ?_⟩
    unfold dispatch
    rw [if_neg hm]
    unfold http_plain_proxy
    rw [hup]
  · intro resp tq hd
    unfold dispatch at hd
    by_cases hm : req.method = "CONNECT"
    · rw [if_pos hm] at hd
      revert hd
      unfold http_connect_accept
      cases requestAuthority req with
      | none =>
        intro hd
        cases hd
      | some a =>
        intro hd
        cases hd
        rfl
    · rw [if_neg hm] at hd
      revert hd
      unfold http_plain_proxy
      cases upstream (forwardedRequest req) with
      | none =>
        intro hd
        cases hd
      | some r =>
        intro hd
        cases hd

/-- Claim C6 witness: a plain GET crosses with both its request and its response sanitized,
while the connection's body budgets are the symmetric `MAX_BODY_SIZE` pair; a CONNECT
request crosses with its headers unchanged. -/
theorem limiter_every_branch_sanitizer_plain_only_witness :
    (serveConnection (fun _ => some (intoResponse 200))
        ⟨"GET", "http://example.test/", [], none⟩).1 = (MAX_BODY_SIZE, MAX_BODY_SIZE) ∧
    dispatch (fun _ => some (intoResponse 200)) ⟨"GET", "http://example.test/", [], none⟩ =
      .plain (intoResponse 200) := by
  have hthm := limiter_every_branch_sanitizer_plain_only (fun _ => some (intoResponse 200))
    ⟨"GET", "http://example.test/", [], none⟩
  exact ⟨hthm.1, (hthm.2.1 (intoResponse 200) (by decide) rfl).2⟩

end SafeChain
